import Mathlib

/-!
Verification of the centralized logging subsystem of `src/jcr/jutil.py`:
the `Transcript` rotating JSON-line log, the `PipeLogger` producer facade,
the `LoggerProcess` supervisor and the `_logging_proc_main` sink loop.

The embedding is shallow:
* Python values that travel over the pipe are modelled by `PyVal`
  (strings, integers and dicts as association lists).
* Timestamps are natural numbers (seconds); `datetime.isoformat` becomes an
  injective decimal rendering `isoformat`; `datetime.combine(date.today(),
  min.time())` becomes `midnightOf`.
* The directory of transcript files is a list of `(file name, lines)` pairs
  in creation order; `open(path, mode := w)` is `fsOpenW`, which truncates an
  existing file of the same name, and writing a line is `fsWrite`.
* Fallible Python code returns `Except String`; a `ZeroDivisionError`,
  `KeyError`, `TypeError` or an explicitly raised exception is an `.error`.
* Buffer flushing has no observable effect on the logical file contents
  modelled here, so flush calls are modelled as no-ops (the division in the
  flush cadence check of `Transcript.add` is still performed, since it can
  raise).
-/

namespace JUtil

/-- Python values exchanged with the logging process: strings, integers and
dicts (association lists, all our dicts have pairwise distinct keys). -/
inductive PyVal where
  | str (s : String)
  | int (n : Int)
  | dict (fields : List (String × PyVal))

mutual

/-- Python `str()` on a `PyVal` (repr-style rendering for dicts). -/
def pystr : PyVal → String
  | .str s => s
  | .int n => toString n
  | .dict fs => "\x7b" ++ pystrFields fs ++ "\x7d"

/-- Rendering of the fields of a dict for `pystr`. -/
def pystrFields : List (String × PyVal) → String
  | [] => ""
  | (k, v) :: rest =>
      "'" ++ k ++ "': " ++ pystr v ++ (if rest.isEmpty then "" else ", ") ++ pystrFields rest

end

mutual

/-- Python `json.dumps` on a `PyVal`. -/
def jsonDumps : PyVal → String
  | .str s => "\"" ++ s ++ "\""
  | .int n => toString n
  | .dict fs => "\x7b" ++ jsonDumpsFields fs ++ "\x7d"

/-- Rendering of the fields of a dict for `jsonDumps`. -/
def jsonDumpsFields : List (String × PyVal) → String
  | [] => ""
  | (k, v) :: rest =>
      "\"" ++ k ++ "\": " ++ jsonDumps v ++ (if rest.isEmpty then "" else ", ") ++ jsonDumpsFields rest

end

/-- Python `v[key]` on a dict: `KeyError` when absent, `TypeError` when `v`
is not a dict. -/
def pyGetItem (v : PyVal) (key : String) : Except String PyVal :=
  match v with
  | .dict fields =>
      match fields.lookup key with
      | some x => .ok x
      | none => .error ("KeyError: " ++ key)
  | _ => .error "TypeError: value is not subscriptable"

/-- Python `int(v)` as used by the sink on the `setlevel` payload (which is
always an integer there). -/
def pyToInt (v : PyVal) : Except String Int :=
  match v with
  | .int n => .ok n
  | _ => .error "TypeError: cannot convert to int"

/-- Python `%` on naturals: raises `ZeroDivisionError` on a zero modulus. -/
def pymod (a b : Nat) : Except String Nat :=
  if b = 0 then .error "ZeroDivisionError: integer division or modulo by zero"
  else .ok (a % b)

/-! ### Timestamps -/

/-- Decimal digit characters of `n`, most significant first, computed with
explicit fuel so that it reduces definitionally. -/
def decChars : Nat → Nat → List Char
  | 0, _ => []
  | fuel + 1, n =>
      if n < 10 then [Nat.digitChar n]
      else decChars fuel (n / 10) ++ [Nat.digitChar (n % 10)]

/-- `datetime.isoformat()` of a timestamp, modelled as the (injective)
decimal rendering of the timestamp. -/
def isoformat (t : Nat) : String :=
  String.mk (decChars (t + 1) t)

/-- `datetime.combine(date.today(), datetime.min.time())`: midnight of the
day the timestamp `t` falls in (days are 86400 seconds). -/
def midnightOf (t : Nat) : Nat :=
  t / 86400 * 86400

/-! ### The transcript directory -/

/-- The transcript directory: files in creation order, each with its list of
written lines. -/
abbrev FS := List (String × List String)

/-- The file names present in the directory. -/
def fsNames (fs : FS) : List String :=
  fs.map Prod.fst

/-- Python `open(path, mode := w)`: truncates an existing file of that name,
otherwise creates a fresh empty file. -/
def fsOpenW (fs : FS) (fname : String) : FS :=
  if (fsNames fs).contains fname then
    fs.map (fun e => if e.1 = fname then (fname, []) else e)
  else
    fs ++ [(fname, [])]

/-- Writing one line through the open handle of file `fname`. -/
def fsWrite (fs : FS) (fname : String) (line : String) : FS :=
  fs.map (fun e => if e.1 = fname then (e.1, e.2 ++ [line]) else e)

/-- The transcript file name `{name}_{t.isoformat()}.log`. -/
def mkFileName (nm : String) (t : Nat) : String :=
  nm ++ "_" ++ isoformat t ++ ".log"

/-! ### Transcript (`jutil.py` lines 89-192) -/

/-- State of a `Transcript` object (`Transcript.__init__` attributes).
`lines_per_log` is only meaningful under the `lines` policy and
`time_per_log` only under the `time` and `day` policies, mirroring the
source where the respective attributes are only assigned on those paths. -/
structure Transcript where
  name : String
  new_file_on : String
  lines_per_log : Nat
  time_per_log : Nat
  lines_per_flush : Nat
  current_line : Nat
  log_start : Nat
  current_file_name : String

/-- `Transcript.create_new_log` at current time `now`: closes the previous
file (no effect on recorded contents), resets the line counter and the
window start per policy, and opens (mode `w`) the file
`{name}_{log_start.isoformat()}.log` — note the source resets `log_start`
first, so the name uses the new window start. -/
def Transcript.create_new_log (tr : Transcript) (now : Nat) (fs : FS) : Transcript × FS :=
  let tr :=
    if tr.new_file_on = "day" then
      { tr with current_line := 0, log_start := midnightOf now }
    else if tr.new_file_on = "lines" then
      { tr with current_line := 0, log_start := now }
    else if tr.new_file_on = "time" then
      { tr with current_line := 0, log_start := now }
    else tr
  let fname := mkFileName tr.name tr.log_start
  ({ tr with current_file_name := fname }, fsOpenW fs fname)

/-- `Transcript.__init__`, with `time_per_log` given as the
`(hours, minutes, seconds)` triple the source parses out of the
`'HH:MM:SS'` string. Unknown policies raise `ValueError`; otherwise the
first log file is created at construction time `now`. -/
def Transcript.init (now : Nat) (name : Option String) (new_file_on : String)
    (lines_per_log : Nat) (time_per_log_hms : Nat × Nat × Nat)
    (lines_per_flush : Nat) (fs : FS) : Except String (Transcript × FS) :=
  let resolved? : Except String (Nat × Nat) :=
    if new_file_on = "day" then
      .ok (0, 86400)
    else if new_file_on = "lines" then
      .ok (lines_per_log, 0)
    else if new_file_on = "time" then
      .ok (0, 3600 * time_per_log_hms.1 + 60 * time_per_log_hms.2.1 + time_per_log_hms.2.2)
    else
      .error ("ValueError: Unknown new_file_on value " ++ new_file_on)
  match resolved? with
  | .error e => .error e
  | .ok resolved =>
      let tr : Transcript :=
        { name := name.getD "TRANSCRIPT"
          new_file_on := new_file_on
          lines_per_log := resolved.1
          time_per_log := resolved.2
          lines_per_flush := lines_per_flush
          current_line := 0
          log_start := 0
          current_file_name := "" }
      .ok (tr.create_new_log now fs)

/-- The line `Transcript.add` writes for payload `obj` at time `now`. -/
def entryLine (now : Nat) (obj : PyVal) : String :=
  isoformat now ++ "::::" ++ jsonDumps obj ++ "\n"

/-- `Transcript.add(obj)` at current time `now`: increments the line
counter, performs the flush cadence check (whose modulus raises
`ZeroDivisionError` when `lines_per_flush = 0`), evaluates the rotation
predicate of the active policy (rotating via `create_new_log`), and writes
the entry line to whichever file is then current.  The source reads
`datetime.now()` twice (rotation check and line timestamp); both reads are
modelled by the single parameter `now`. -/
def Transcript.add (tr : Transcript) (now : Nat) (obj : PyVal) (fs : FS) :
    Except String (Transcript × FS) :=
  let tr := { tr with current_line := tr.current_line + 1 }
  match pymod tr.current_line tr.lines_per_flush with
  | .error e => .error e
  | .ok _flushCheck =>
      let (tr, fs) :=
        if tr.new_file_on = "lines" then
          if tr.lines_per_log ≤ tr.current_line then tr.create_new_log now fs else (tr, fs)
        else if tr.new_file_on = "time" || tr.new_file_on = "day" then
          if (tr.time_per_log : Int) ≤ (now : Int) - (tr.log_start : Int) then
            tr.create_new_log now fs
          else (tr, fs)
        else (tr, fs)
      .ok (tr, fsWrite fs tr.current_file_name (entryLine now obj))

/-- `Transcript.close`: closes the current file handle; no effect on the
recorded file contents. -/
def Transcript.close (_tr : Transcript) (fs : FS) : FS :=
  fs

/-! ### The sink process (`_logging_proc_main`, `jutil.py` lines 449-546) -/

/-- Observable actions of the sink process: a record emitted through the
console handler, a record emitted through the file handler, a payload
handed to `Transcript.add`, and the close calls of the cleanup paths. -/
inductive Event where
  | consoleOut (level : Int) (msg : PyVal)
  | fileOut (level : Int) (msg : PyVal)
  | transcriptAdd (msg : PyVal)
  | closeFile
  | closeConsole
  | closeTranscript
  | dispatched (p : PyVal)

/-- Mutable state of the sink process: the logger level, the console
handler level, the file handler level (`none` when no file handler was
configured), whether a transcript was configured, and the emitted-record
counter used by the flush cadence. -/
structure SinkSt where
  logLevel : Int
  consoleLevel : Int
  fileLevel : Option Int
  usingTranscript : Bool
  flushEvery : Nat
  numLogLines : Nat

/-- `log.log(level, msg)` of the standard logging machinery as configured by
the sink: the record reaches a handler iff its level passes the logger
level and that handler's level. -/
def emitLog (st : SinkSt) (level : Int) (msg : PyVal) : List Event :=
  (if st.logLevel ≤ level ∧ st.consoleLevel ≤ level then [.consoleOut level msg] else [])
    ++ (match st.fileLevel with
        | some fl => if st.logLevel ≤ level ∧ fl ≤ level then [.fileOut level msg] else []
        | none => [])

/-- One iteration of the sink's dispatch on a received non-quit object
`rcvd`: branch on `rcvd[level]` — the string `transcript` (fatal when no
transcript is configured), the string `setlevel` (which logs a level-100
notice with the old levels, then updates the logger level and the console
handler level — the file handler level is not touched), and otherwise a log
record, whose level must be an integer. -/
def stepParcel (st : SinkSt) (rcvd : PyVal) : Except String (SinkSt × List Event) :=
  match pyGetItem rcvd "level" with
  | .error e => .error e
  | .ok lvl =>
      match lvl with
      | .str "transcript" =>
          if st.usingTranscript then
            match pyGetItem rcvd "msg" with
            | .error e => .error e
            | .ok m => .ok (st, [.transcriptAdd m])
          else
            .error "Received transcript write message but no transcript is enabled."
      | .str "setlevel" =>
          match pyGetItem rcvd "msg" with
          | .error e => .error e
          | .ok m =>
              match pyToInt m with
              | .error e => .error e
              | .ok newlevel =>
                  .ok ({ st with logLevel := newlevel, consoleLevel := newlevel },
                    emitLog st 100 (.str ("Setting logger level to " ++ toString newlevel)))
      | .int n =>
          match pyGetItem rcvd "msg" with
          | .error e => .error e
          | .ok m => .ok ({ st with numLogLines := st.numLogLines + 1 }, emitLog st n m)
      | _ =>
          .error "TypeError: level must be an integer"

/-- `traceback.format_exc()` for the exception text `e`. -/
def format_exc (e : String) : String :=
  "Traceback (most recent call last): " ++ e

/-- Cleanup performed by the `except Exception` arm of the sink loop:
log the exception and its traceback at critical level, close the file
handler (if configured), the console handler, and the transcript (if
configured), then re-raise — the loop is not resumed. -/
def errorCleanup (st : SinkSt) (e : String) : List Event :=
  emitLog st 50 (.str ("Encountered exception in Logging Process: " ++ e))
    ++ emitLog st 50 (.str (format_exc e))
    ++ (if st.fileLevel.isSome then [Event.closeFile] else [])
    ++ [Event.closeConsole]
    ++ (if st.usingTranscript then [Event.closeTranscript] else [])

/-- Cleanup performed after the receive loop breaks on the quit sentinel:
close the transcript (if configured), the file handler (if configured) and
the console handler. -/
def normalCleanup (st : SinkSt) : List Event :=
  (if st.usingTranscript then [Event.closeTranscript] else [])
    ++ (if st.fileLevel.isSome then [Event.closeFile] else [])
    ++ [Event.closeConsole]

/-- How a run of the sink's receive loop ended: `exited` after breaking on
the quit sentinel, `fatal` after an uncaught exception was re-raised, and
`starved` when the modelled message sequence ran out — in the source the
process would still be blocked in `recv()`. -/
inductive Outcome where
  | exited
  | fatal (e : String)
  | starved
deriving DecidableEq

/-- The `rcvd == LoggerProcess.QUIT_PROC_SIGNAL` comparison of the sink
loop. -/
def isQuitSignal : PyVal → Bool
  | .str s => s = "quit_logger"
  | _ => false

/-- The sink's receive loop over the sequence of objects arriving on the
pipe.  A received `LoggerProcess.QUIT_PROC_SIGNAL` breaks the loop and runs
the normal cleanup; any exception raised while processing a parcel runs the
error cleanup and terminates the process.  A ghost `dispatched` event marks
each parcel whose processing completed. -/
def runLoop (st : SinkSt) : List PyVal → List Event × Outcome
  | [] => ([], .starved)
  | rcvd :: rest =>
      if isQuitSignal rcvd then (normalCleanup st, .exited)
      else
        match stepParcel st rcvd with
        | .ok (st', evs) =>
            let tail := runLoop st' rest
            (evs ++ [.dispatched rcvd] ++ tail.1, tail.2)
        | .error e => (errorCleanup st e, .fatal e)

/-- Initial sink state as configured at the top of `_logging_proc_main`:
logger and console handler at `log_level_console`, file handler at
`log_level_file` when one is given, transcript configured iff a transcript
path was given. -/
def mkSinkSt (log_level_console : Int) (log_level_file : Option Int)
    (transcript_configured : Bool) (flush_every : Nat) : SinkSt :=
  { logLevel := log_level_console
    consoleLevel := log_level_console
    fileLevel := log_level_file
    usingTranscript := transcript_configured
    flushEvery := flush_every
    numLogLines := 0 }

/-- `_logging_proc_main`: configure the handlers, log the startup notice
at INFO (level 20), then run the receive loop on the arriving objects. -/
def sinkMain (log_level_console : Int) (log_level_file : Option Int)
    (transcript_configured : Bool) (flush_every : Nat) (msgs : List PyVal) :
    List Event × Outcome :=
  let st := mkSinkSt log_level_console log_level_file transcript_configured flush_every
  let startup := emitLog st 20 (.str "Start Logging Server Process...")
  let run := runLoop st msgs
  (startup ++ run.1, run.2)

/-! ### Producer and supervisor parcels (`PipeLogger`, `LoggerProcess`) -/

/-- `LoggerProcess.QUIT_PROC_SIGNAL`, the value `LoggerProcess.join` sends
before waiting for the sink process. -/
def QUIT_PROC_SIGNAL : PyVal :=
  .str "quit_logger"

/-- The parcel `PipeLogger.log(level, msg)` sends: a non-empty handle name
is prepended to the (stringified) message, and the wire object is the dict
`\x7blevel: level, msg: msg\x7d`. -/
def PipeLogger.logParcel (name : String) (level : PyVal) (msg : PyVal) : PyVal :=
  let msg := if name ≠ "" then PyVal.str (name ++ ": " ++ pystr msg) else msg
  .dict [("level", level), ("msg", msg)]

/-- `PipeLogger.transcript(msg)`: a `log` call at the level tag
`transcript`. -/
def PipeLogger.transcriptParcel (name : String) (msg : PyVal) : PyVal :=
  PipeLogger.logParcel name (.str "transcript") msg

/-- `PipeLogger.debug/info/warning/error/critical(msg)`: a `log` call at
the corresponding integer severity. -/
def PipeLogger.recordParcel (name : String) (level : Int) (msg : PyVal) : PyVal :=
  PipeLogger.logParcel name (.int level) msg

/-- The parcel `LoggerProcess.setLevel(log_level)` sends. -/
def setLevelParcel (log_level : Int) : PyVal :=
  .dict [("level", .str "setlevel"), ("msg", .int log_level)]

/-- `LoggerProcess.join()`: sends the quit sentinel after everything the
supervisor already enqueued and waits for the sink process to exit; the
sink therefore runs on `msgs ++ [QUIT_PROC_SIGNAL]`. -/
def joinRun (log_level_console : Int) (log_level_file : Option Int)
    (transcript_configured : Bool) (flush_every : Nat) (msgs : List PyVal) :
    List Event × Outcome :=
  sinkMain log_level_console log_level_file transcript_configured flush_every
    (msgs ++ [QUIT_PROC_SIGNAL])

/-- The parcels the sink completed processing, in order (the ghost
`dispatched` markers of a run). -/
def dispatchTrace (evs : List Event) : List PyVal :=
  evs.filterMap fun e =>
    match e with
    | .dispatched p => some p
    | _ => none

/-- A run of a fresh `Transcript` under the `lines` policy with
`lines_per_log = n`: constructed at time `t0` on an empty directory,
followed by `k` calls of `add`, the `i`-th at time `ts i` with payload
`ps i`. -/
def linesRun (n : Nat) (nm : String) (lpf t0 : Nat) (ts : Nat → Nat) (ps : Nat → PyVal) :
    Nat → Except String (Transcript × FS)
  | 0 => Transcript.init t0 (some nm) "lines" n (0, 0, 0) lpf []
  | k + 1 =>
      match linesRun n nm lpf t0 ts ps k with
      | .error e => .error e
      | .ok (tr, fs) => tr.add (ts k) (ps k) fs

/-- Value of the `current_line` counter after `k` adds under the `lines`
policy with threshold `n`. -/
def ctr (n k : Nat) : Nat :=
  if k < n then k else (k - n) % n

/-- Line counts of the already-rotated-away files after `k` adds under the
`lines` policy with threshold `n` (creation order). -/
def closedCounts (n k : Nat) : List Nat :=
  if k < n then [] else (n - 1) :: List.replicate ((k - n) / n) n

/-- Line count of the currently open file after `k` adds under the `lines`
policy with threshold `n`. -/
def curCount (n k : Nat) : Nat :=
  if k < n then k else (k - n) % n + 1

/-- Line counts of all transcript files, in creation order, after `k` adds
under the `lines` policy with threshold `n`. -/
def countsAfter (n k : Nat) : List Nat :=
  closedCounts n k ++ [curCount n k]

/-- Whether the sink can process parcel `p` without raising: `p` is a dict
with a `level` field that is the string `transcript` (allowed only when a
transcript is configured, and with a `msg` field present), the string
`setlevel` (with an integer `msg`), or an integer (with a `msg` field
present). -/
def processable (transcript_configured : Bool) (p : PyVal) : Bool :=
  match p with
  | .dict fields =>
      match fields.lookup "level" with
      | some (.str s) =>
          if s = "transcript" then transcript_configured && (fields.lookup "msg").isSome
          else if s = "setlevel" then
            match fields.lookup "msg" with
            | some (.int _) => true
            | _ => false
          else false
      | some (.int _) => (fields.lookup "msg").isSome
      | _ => false
  | _ => false

/-- Classifier for console emissions at a given level. -/
def Event.isConsoleOutAt (l : Int) : Event → Bool
  | .consoleOut l' _ => l' == l
  | _ => false

/-- Classifier for file emissions at a given level. -/
def Event.isFileOutAt (l : Int) : Event → Bool
  | .fileOut l' _ => l' == l
  | _ => false

/-- Classifier for counting close calls on the console handler. -/
def Event.isCloseConsole : Event → Bool
  | .closeConsole => true
  | _ => false

/-- Classifier for counting close calls on the file handler. -/
def Event.isCloseFile : Event → Bool
  | .closeFile => true
  | _ => false

/-- Classifier for counting close calls on the transcript. -/
def Event.isCloseTranscript : Event → Bool
  | .closeTranscript => true
  | _ => false

/-- A concrete `time`-policy transcript state used to instantiate theorems
with hypotheses: window of 10 seconds starting at 100, flush cadence
100. -/
def sampleTimeTr : Transcript :=
  { name := "T"
    new_file_on := "time"
    lines_per_log := 0
    time_per_log := 10
    lines_per_flush := 100
    current_line := 0
    log_start := 100
    current_file_name := mkFileName "T" 100 }

/-- `sampleTimeTr` with the flush cadence misconfigured to 0. -/
def sampleZeroFlushTr : Transcript :=
  { sampleTimeTr with lines_per_flush := 0 }

/-! ## Supporting lemmas -/

/-- The fuelled decimal rendering agrees with `Nat.digits` for positive
inputs with enough fuel. -/
theorem decChars_eq_digits (fuel : Nat) :
    ∀ n, 1 ≤ n → n ≤ fuel →
      decChars fuel n = ((Nat.digits 10 n).map Nat.digitChar).reverse := by
  induction fuel with
  | zero => intro n h1 h2; omega
  | succ f ih =>
      intro n h1 h2
      by_cases hn : n < 10
      · have hd : Nat.digits 10 n = [n] := by
          rw [Nat.digits_def' (by norm_num) (by omega)]
          simp [Nat.mod_eq_of_lt hn, Nat.div_eq_of_lt hn]
        simp [decChars, hn, hd]
      · push_neg at hn
        have hdiv1 : 1 ≤ n / 10 := (Nat.one_le_div_iff (by norm_num)).mpr hn
        have hdivf : n / 10 ≤ f := by
          have := Nat.div_lt_self (show 0 < n by omega) (show 1 < 10 by norm_num)
          omega
        have hstep : decChars (f + 1) n = decChars f (n / 10) ++ [Nat.digitChar (n % 10)] := by
          simp [decChars, show ¬ n < 10 by omega]
        rw [hstep, ih (n / 10) hdiv1 hdivf,
          Nat.digits_def' (show (1:Nat) < 10 by norm_num) (show 0 < n by omega)]
        simp

/-- `Nat.digitChar` is injective below the base 10. -/
theorem digitChar_inj_lt : ∀ a, a < 10 → ∀ b, b < 10 → Nat.digitChar a = Nat.digitChar b → a = b := by
  decide

/-- Mapping `Nat.digitChar` over lists of digits (< 10) is injective. -/
theorem map_digitChar_inj :
    ∀ l₁ l₂ : List Nat, (∀ x ∈ l₁, x < 10) → (∀ x ∈ l₂, x < 10) →
      l₁.map Nat.digitChar = l₂.map Nat.digitChar → l₁ = l₂ := by
  intro l₁
  induction l₁ with
  | nil => intro l₂ _ _ h; cases l₂ <;> simp_all
  | cons a t ih =>
      intro l₂ h1 h2 h
      cases l₂ with
      | nil => simp_all
      | cons b t₂ =>
          simp only [List.map_cons, List.cons.injEq] at h
          have ha : a = b :=
            digitChar_inj_lt a (h1 a (by simp)) b (h2 b (by simp)) h.1
          have ht : t = t₂ :=
            ih t₂ (fun x hx => h1 x (by simp [hx])) (fun x hx => h2 x (by simp [hx])) h.2
          rw [ha, ht]

/-- Helper: a positive number never renders to the string of zero. -/
theorem digits_render_ne_zero {b : Nat} (hb : 1 ≤ b)
    (h : ((Nat.digits 10 b).map Nat.digitChar).reverse = ['0']) : False := by
  have h' : (Nat.digits 10 b).map Nat.digitChar = ['0'] := by
    have := congrArg List.reverse h
    simpa using this
  have hlen : (Nat.digits 10 b).length = 1 := by
    have := congrArg List.length h'
    simpa using this
  obtain ⟨d, hd⟩ := List.length_eq_one.mp hlen
  have hchar : Nat.digitChar d = '0' := by
    rw [hd] at h'
    simpa using h'
  have hdlt : d < 10 := Nat.digits_lt_base (by norm_num) (by rw [hd]; simp)
  have hd0 : d = 0 := digitChar_inj_lt d hdlt 0 (by norm_num) (by simpa using hchar)
  subst hd0
  have := congrArg (Nat.ofDigits 10) hd
  rw [Nat.ofDigits_digits] at this
  simp [Nat.ofDigits] at this
  omega

/-- The modelled `isoformat` is injective. -/
theorem isoformat_injective : Function.Injective isoformat := by
  intro a b h
  have hd : decChars (a + 1) a = decChars (b + 1) b := congrArg String.data h
  by_cases ha : a = 0 <;> by_cases hb : b = 0
  · omega
  · exfalso
    subst ha
    have h0 : decChars 1 0 = ['0'] := rfl
    rw [h0, decChars_eq_digits (b + 1) b (by omega) (by omega)] at hd
    exact digits_render_ne_zero (by omega) hd.symm
  · exfalso
    subst hb
    have h0 : decChars 1 0 = ['0'] := rfl
    rw [h0, decChars_eq_digits (a + 1) a (by omega) (by omega)] at hd
    exact digits_render_ne_zero (by omega) hd
  · rw [decChars_eq_digits (a + 1) a (by omega) (by omega),
      decChars_eq_digits (b + 1) b (by omega) (by omega)] at hd
    have hmap := List.reverse_injective hd
    have hdig := map_digitChar_inj _ _
      (fun x hx => Nat.digits_lt_base (by norm_num) hx)
      (fun x hx => Nat.digits_lt_base (by norm_num) hx) hmap
    exact Nat.digits.injective 10 hdig

/-- Transcript file names with the same name stem identify the window-start
timestamp. -/
theorem mkFileName_inj {nm : String} {t₁ t₂ : Nat} (h : mkFileName nm t₁ = mkFileName nm t₂) :
    t₁ = t₂ := by
  apply isoformat_injective
  have hdata := congrArg String.data h
  simp only [mkFileName, String.data_append, List.append_assoc] at hdata
  have h1 := List.append_cancel_left hdata
  have h2 := List.append_cancel_left h1
  have h3 := List.append_cancel_right h2
  revert h3
  generalize isoformat t₁ = s₁
  generalize isoformat t₂ = s₂
  intro h3
  cases s₁
  cases s₂
  exact congrArg String.mk h3

/-- Opening a file with a fresh name appends an empty file to the
directory. -/
theorem fsOpenW_fresh {fs : FS} {fname : String} (h : fname ∉ fsNames fs) :
    fsOpenW fs fname = fs ++ [(fname, [])] := by
  have hc : (fsNames fs).contains fname = false := by
    simpa using h
  simp only [fsOpenW, hc, Bool.false_eq_true, if_false]

/-- Writing through the handle of the last file, whose name does not occur
earlier, appends the line to that file and leaves the others untouched. -/
theorem fsWrite_append_last {done : FS} {fname : String} {c : List String} {line : String}
    (h : fname ∉ fsNames done) :
    fsWrite (done ++ [(fname, c)]) fname line = done ++ [(fname, c ++ [line])] := by
  unfold fsWrite
  rw [List.map_append]
  have hdone : done.map (fun e => if e.1 = fname then (e.1, e.2 ++ [line]) else e) = done := by
    induction done with
    | nil => rfl
    | cons a t ih =>
        have ha : a.1 ≠ fname := by
          intro hfa
          exact h (by simp [fsNames, hfa])
        have ht : fname ∉ fsNames t := by
          intro hft
          exact h (by simp [fsNames] at hft ⊢; exact Or.inr hft)
        simp [ha, ih ht]
  rw [hdone]
  simp

/-- Writing a line never changes the set or order of file names. -/
theorem fsNames_fsWrite (fs : FS) (fname line : String) :
    fsNames (fsWrite fs fname line) = fsNames fs := by
  unfold fsNames fsWrite
  rw [List.map_map]
  apply List.map_congr_left
  intro e _
  by_cases h : e.1 = fname <;> simp [h]

/-- `Transcript.add` under the `lines` policy when the incremented counter
stays below the threshold: no rotation, the entry is appended to the
current file. -/
theorem add_lines_no_rot {tr : Transcript} {now : Nat} {obj : PyVal} {done : FS}
    {c : List String}
    (hpol : tr.new_file_on = "lines")
    (hlpf : 1 ≤ tr.lines_per_flush)
    (hlt : tr.current_line + 1 < tr.lines_per_log)
    (hname : tr.current_file_name ∉ fsNames done) :
    tr.add now obj (done ++ [(tr.current_file_name, c)]) =
      .ok ({ tr with current_line := tr.current_line + 1 },
        done ++ [(tr.current_file_name, c ++ [entryLine now obj])]) := by
  simp [Transcript.add, pymod, show tr.lines_per_flush ≠ 0 by omega, hpol,
    show ¬ tr.lines_per_log ≤ tr.current_line + 1 by omega,
    fsWrite_append_last hname]

/-- `Transcript.add` under the `lines` policy when the incremented counter
reaches the threshold: the transcript rotates and writes the entry as the
first line of the newly created file. -/
theorem add_lines_rot {tr : Transcript} {now : Nat} {obj : PyVal} {fs : FS}
    (hpol : tr.new_file_on = "lines")
    (hlpf : 1 ≤ tr.lines_per_flush)
    (hge : tr.lines_per_log ≤ tr.current_line + 1)
    (hfresh : mkFileName tr.name now ∉ fsNames fs) :
    tr.add now obj fs =
      .ok ({ tr with
               current_line := 0
               log_start := now
               current_file_name := mkFileName tr.name now },
        fs ++ [(mkFileName tr.name now, [entryLine now obj])]) := by
  have hw := @fsWrite_append_last fs (mkFileName tr.name now) [] (entryLine now obj) hfresh
  simp [Transcript.add, Transcript.create_new_log, pymod,
    show tr.lines_per_flush ≠ 0 by omega, hpol, hge, fsOpenW_fresh hfresh] at hw ⊢
  simpa using hw

/-- Writing a line through a handle only appends: every file keeps its
content as a prefix. -/
theorem fsWrite_preserves (fs : FS) (fname line nm0 : String) (c0 : List String)
    (hm : (nm0, c0) ∈ fs) :
    ∃ c1, (nm0, c1) ∈ fsWrite fs fname line ∧ c0 <+: c1 := by
  have hmap := List.mem_map_of_mem
    (fun e : String × List String => if e.1 = fname then (e.1, e.2 ++ [line]) else e) hm
  by_cases h : nm0 = fname
  · exact ⟨c0 ++ [line], by simpa [fsWrite, h] using hmap, List.prefix_append c0 [line]⟩
  · exact ⟨c0, by simpa [fsWrite, h] using hmap, List.prefix_refl c0⟩

/-- `Transcript.add` under the `day` policy at or past the end of the
24-hour window: the transcript rotates, the new window starts at the
midnight of `now`, and the entry is the first line of the new file. -/
theorem add_day_rot {tr : Transcript} {now : Nat} {obj : PyVal} {fs : FS}
    (hpol : tr.new_file_on = "day")
    (hlpf : 1 ≤ tr.lines_per_flush)
    (hge : (tr.time_per_log : Int) ≤ (now : Int) - (tr.log_start : Int))
    (hfresh : mkFileName tr.name (midnightOf now) ∉ fsNames fs) :
    tr.add now obj fs =
      .ok ({ tr with
               current_line := 0
               log_start := midnightOf now
               current_file_name := mkFileName tr.name (midnightOf now) },
        fs ++ [(mkFileName tr.name (midnightOf now), [entryLine now obj])]) := by
  have hw := @fsWrite_append_last fs (mkFileName tr.name (midnightOf now)) [] (entryLine now obj) hfresh
  simp [Transcript.add, Transcript.create_new_log, pymod,
    show tr.lines_per_flush ≠ 0 by omega, hpol, hge, fsOpenW_fresh hfresh] at hw ⊢
  simpa using hw

/-- `Transcript.add` under the `time` policy before the window has elapsed:
no rotation, the entry is appended to the current file. -/
theorem add_time_no_rot {tr : Transcript} {now : Nat} {obj : PyVal} {done : FS}
    {c : List String}
    (hpol : tr.new_file_on = "time")
    (hlpf : 1 ≤ tr.lines_per_flush)
    (hlt : (now : Int) - (tr.log_start : Int) < (tr.time_per_log : Int))
    (hname : tr.current_file_name ∉ fsNames done) :
    tr.add now obj (done ++ [(tr.current_file_name, c)]) =
      .ok ({ tr with current_line := tr.current_line + 1 },
        done ++ [(tr.current_file_name, c ++ [entryLine now obj])]) := by
  simp [Transcript.add, pymod, show tr.lines_per_flush ≠ 0 by omega, hpol,
    show ¬ ((tr.time_per_log : Int) ≤ (now : Int) - (tr.log_start : Int)) by omega,
    fsWrite_append_last hname]

/-- `Transcript.add` under the `time` policy at or past the end of the
window: the transcript rotates, the new window starts at `now`, the new
file is named with the new window start, and the entry is its first
line. -/
theorem add_time_rot {tr : Transcript} {now : Nat} {obj : PyVal} {fs : FS}
    (hpol : tr.new_file_on = "time")
    (hlpf : 1 ≤ tr.lines_per_flush)
    (hge : (tr.time_per_log : Int) ≤ (now : Int) - (tr.log_start : Int))
    (hfresh : mkFileName tr.name now ∉ fsNames fs) :
    tr.add now obj fs =
      .ok ({ tr with
               current_line := 0
               log_start := now
               current_file_name := mkFileName tr.name now },
        fs ++ [(mkFileName tr.name now, [entryLine now obj])]) := by
  have hw := @fsWrite_append_last fs (mkFileName tr.name now) [] (entryLine now obj) hfresh
  simp [Transcript.add, Transcript.create_new_log, pymod,
    show tr.lines_per_flush ≠ 0 by omega, hpol, hge, fsOpenW_fresh hfresh] at hw ⊢
  simpa using hw

/-- The counter stays below the threshold. -/
theorem ctr_lt {n k : Nat} (h : 2 ≤ n) : ctr n k < n := by
  unfold ctr
  split
  · omega
  · exact Nat.mod_lt _ (by omega)

/-- Count bookkeeping for a non-rotating `lines`-policy add. -/
theorem counts_step_no_rot {n k : Nat} (h2 : 2 ≤ n) (h : ctr n k + 1 < n) :
    ctr n (k + 1) = ctr n k + 1 ∧ closedCounts n (k + 1) = closedCounts n k ∧
      curCount n (k + 1) = curCount n k + 1 := by
  by_cases hk1 : k + 1 < n
  · have hk : k < n := by omega
    simp [ctr, closedCounts, curCount, hk, hk1]
  · have hk : ¬ k < n := by
      intro hk
      have : ctr n k = k := by simp [ctr, hk]
      omega
    push_neg at hk hk1
    have hj : ctr n k = (k - n) % n := by simp [ctr, show ¬ k < n by omega]
    have hmodlt : (k - n) % n + 1 < n := by omega
    have h1n : 1 % n = 1 := Nat.mod_eq_of_lt (by omega)
    have hmod : (k - n + 1) % n = (k - n) % n + 1 := by
      rw [Nat.add_mod, h1n, Nat.mod_eq_of_lt hmodlt]
    have hdvd : ¬ n ∣ (k - n + 1) := by
      intro hd
      have := (Nat.dvd_iff_mod_eq_zero).mp hd
      omega
    have hdiv : (k - n + 1) / n = (k - n) / n := by
      rw [Nat.succ_div, if_neg hdvd]
      omega
    have e1 : k + 1 - n = k - n + 1 := by omega
    refine ⟨?_, ?_, ?_⟩
    · simp [ctr, show ¬ k + 1 < n by omega, show ¬ k < n by omega, e1, hmod]
    · simp [closedCounts, show ¬ k + 1 < n by omega, show ¬ k < n by omega, e1, hdiv]
    · simp [curCount, show ¬ k + 1 < n by omega, show ¬ k < n by omega, e1, hmod]

/-- Count bookkeeping for a rotating `lines`-policy add: the current file
is completed (joins the closed counts) and the new file starts with the
boundary-crossing entry. -/
theorem counts_step_rot {n k : Nat} (h2 : 2 ≤ n) (h : ctr n k + 1 = n) :
    ctr n (k + 1) = 0 ∧ closedCounts n (k + 1) = closedCounts n k ++ [curCount n k] ∧
      curCount n (k + 1) = 1 := by
  by_cases hk : k < n
  · have hctr : ctr n k = k := by simp [ctr, hk]
    have hkn : k + 1 = n := by omega
    have e0 : k + 1 - n = 0 := by omega
    refine ⟨?_, ?_, ?_⟩
    · simp [ctr, show ¬ k + 1 < n by omega, e0, Nat.zero_mod]
    · simp [closedCounts, curCount, show ¬ k + 1 < n by omega, hk, e0,
        Nat.zero_div, hctr, ← hkn]
    · simp [curCount, show ¬ k + 1 < n by omega, e0, Nat.zero_mod]
  · push_neg at hk
    have hj : ctr n k = (k - n) % n := by simp [ctr, show ¬ k < n by omega]
    have hmodv : (k - n) % n = n - 1 := by omega
    have h1n : 1 % n = 1 := Nat.mod_eq_of_lt (by omega)
    have hmod : (k - n + 1) % n = 0 := by
      rw [Nat.add_mod, h1n, hmodv, show n - 1 + 1 = n by omega, Nat.mod_self]
    have hdvd : n ∣ (k - n + 1) := (Nat.dvd_iff_mod_eq_zero).mpr hmod
    have hdiv : (k - n + 1) / n = (k - n) / n + 1 := by
      rw [Nat.succ_div, if_pos hdvd]
    have e1 : k + 1 - n = k - n + 1 := by omega
    refine ⟨?_, ?_, ?_⟩
    · simp [ctr, show ¬ k + 1 < n by omega, e1, hmod]
    · simp only [closedCounts, curCount, show ¬ k + 1 < n by omega, if_false,
        show ¬ k < n by omega, e1, hdiv, hmodv, List.replicate_succ']
      simp [show n - 1 + 1 = n by omega]
    · simp [curCount, show ¬ k + 1 < n by omega, e1, hmod]

/-- Full characterization of a fresh `lines`-policy transcript run: after
`k` adds the directory splits into the closed files and the current file,
with the line counts predicted by `closedCounts`/`curCount`, the counter
equals `ctr n k`, every file name stems from a past timestamp, and the
current file's name does not occur among the closed files. -/
theorem linesRun_spec (n : Nat) (nm : String) (lpf t0 : Nat) (ts : Nat → Nat) (ps : Nat → PyVal)
    (h2 : 2 ≤ n) (hlpf : 1 ≤ lpf) (ht0 : t0 < ts 0) (hts : ∀ i, ts i < ts (i + 1)) :
    ∀ k, ∃ tr done cur,
      linesRun n nm lpf t0 ts ps k = .ok (tr, done ++ [cur]) ∧
      tr.new_file_on = "lines" ∧ tr.lines_per_log = n ∧ tr.lines_per_flush = lpf ∧
      tr.name = nm ∧ tr.current_line = ctr n k ∧ tr.current_file_name = cur.1 ∧
      done.map (fun e => e.2.length) = closedCounts n k ∧
      cur.2.length = curCount n k ∧
      (∀ e ∈ done ++ [cur], ∃ t, t < ts k ∧ e.1 = mkFileName nm t) ∧
      cur.1 ∉ fsNames done := by
  intro k
  induction k with
  | zero =>
      refine ⟨{ name := nm, new_file_on := "lines", lines_per_log := n, time_per_log := 0,
                lines_per_flush := lpf, current_line := 0, log_start := t0,
                current_file_name := mkFileName nm t0 },
        [], (mkFileName nm t0, []), ?_, rfl, rfl, rfl, rfl, ?_, rfl, ?_, ?_, ?_, ?_⟩
      · rfl
      · simp [ctr, show 0 < n by omega]
      · simp [closedCounts, show 0 < n by omega]
      · simp [curCount, show 0 < n by omega]
      · intro e he
        simp at he
        exact ⟨t0, ht0, by rw [he]⟩
      · simp [fsNames]
  | succ k ih =>
      obtain ⟨tr, done, cur, hrun, hpol, hlpl, hlpf', hnm, hctr, hcfn, hdone, hcur,
        htimes, hfresh⟩ := ih
      obtain ⟨cn, cc⟩ := cur
      simp only at hcfn hcur hfresh
      have hrun1 : linesRun n nm lpf t0 ts ps (k + 1) = tr.add (ts k) (ps k) (done ++ [(cn, cc)]) := by
        simp [linesRun, hrun]
      rcases Nat.lt_or_ge (ctr n k + 1) n with hlt | hge
      · -- no rotation in this step
        obtain ⟨hc1, hc2, hc3⟩ := counts_step_no_rot h2 hlt
        have hadd := @add_lines_no_rot tr (ts k) (ps k) done cc hpol (by omega)
          (by rw [hctr, hlpl]; exact hlt) (by rw [hcfn]; exact hfresh)
        rw [hcfn] at hadd
        refine ⟨{ tr with current_line := tr.current_line + 1 }, done,
          (cn, cc ++ [entryLine (ts k) (ps k)]), ?_, hpol, hlpl, hlpf', hnm, ?_, ?_, ?_, ?_, ?_, ?_⟩
        · rw [hrun1, hadd, hcfn]
        · simpa [hctr] using hc1.symm
        · simpa using hcfn
        · rw [hdone, hc2]
        · simpa [hcur] using hc3.symm
        · intro e he
          have he' : e ∈ done ++ [(cn, cc)] ∨ e = (cn, cc ++ [entryLine (ts k) (ps k)]) := by
            rcases List.mem_append.mp he with h | h
            · exact Or.inl (List.mem_append.mpr (Or.inl h))
            · exact Or.inr (by simpa using h)
          rcases he' with h | h
          · obtain ⟨t, htk, hname⟩ := htimes e h
            exact ⟨t, by have := hts k; omega, hname⟩
          · obtain ⟨t, htk, hname⟩ := htimes (cn, cc) (List.mem_append.mpr (Or.inr (by simp)))
            exact ⟨t, by have := hts k; omega, by rw [h]; exact hname⟩
        · exact hfresh
      · -- rotation fires in this step
        have heq : ctr n k + 1 = n := by
          have := @ctr_lt n k h2
          omega
        obtain ⟨hc1, hc2, hc3⟩ := counts_step_rot h2 heq
        have hfreshname : mkFileName nm (ts k) ∉ fsNames (done ++ [(cn, cc)]) := by
          intro hin
          obtain ⟨e, he, hfe⟩ := List.mem_map.mp hin
          obtain ⟨t, htk, hname⟩ := htimes e he
          rw [hname] at hfe
          have := mkFileName_inj hfe
          omega
        have hadd := @add_lines_rot tr (ts k) (ps k) (done ++ [(cn, cc)]) hpol (by omega)
          (by rw [hctr, hlpl]; omega) (by rw [hnm]; exact hfreshname)
        refine ⟨{ tr with
                    current_line := 0
                    log_start := ts k
                    current_file_name := mkFileName tr.name (ts k) },
          done ++ [(cn, cc)], (mkFileName nm (ts k), [entryLine (ts k) (ps k)]),
          ?_, hpol, hlpl, hlpf', hnm, ?_, ?_, ?_, ?_, ?_, ?_⟩
        · rw [hrun1, hadd, hnm]
        · simpa using hc1.symm
        · simp [hnm]
        · simp only [List.map_append, hdone, List.map_cons, List.map_nil]
          rw [hc2, hcur]
        · simpa using hc3.symm
        · intro e he
          have he' : e ∈ done ++ [(cn, cc)] ∨ e = (mkFileName nm (ts k), [entryLine (ts k) (ps k)]) := by
            rcases List.mem_append.mp he with h | h
            · exact Or.inl h
            · exact Or.inr (by simpa using h)
          rcases he' with h | h
          · obtain ⟨t, htk, hname⟩ := htimes e h
            exact ⟨t, by have := hts k; omega, hname⟩
          · exact ⟨ts k, hts k, by rw [h]⟩
        · exact hfreshname

/-- Every event of `emitLog` is a console or file emission of the given
record. -/
theorem emitLog_mem {st : SinkSt} {l : Int} {m : PyVal} :
    ∀ e ∈ emitLog st l m, e = Event.consoleOut l m ∨ e = Event.fileOut l m := by
  intro e he
  unfold emitLog at he
  rcases List.mem_append.mp he with h | h
  · split at h
    · exact Or.inl (by simpa using h)
    · simp at h
  · cases hfl : st.fileLevel with
    | none =>
        rw [hfl] at h
        simp at h
    | some fl =>
        rw [hfl] at h
        by_cases hcond : st.logLevel ≤ l ∧ fl ≤ l
        · simp only [hcond, if_true] at h
          exact Or.inr (by simpa using h)
        · simp only [hcond, if_false] at h
          simp at h

/-- `emitLog` produces no close events and no dispatch markers. -/
theorem emitLog_no_admin (st : SinkSt) (l : Int) (m : PyVal) :
    (emitLog st l m).countP Event.isCloseConsole = 0 ∧
    (emitLog st l m).countP Event.isCloseFile = 0 ∧
    (emitLog st l m).countP Event.isCloseTranscript = 0 ∧
    dispatchTrace (emitLog st l m) = [] := by
  refine ⟨?_, ?_, ?_, ?_⟩
  · exact List.countP_eq_zero.mpr fun e he => by
      rcases emitLog_mem e he with rfl | rfl <;> simp [Event.isCloseConsole]
  · exact List.countP_eq_zero.mpr fun e he => by
      rcases emitLog_mem e he with rfl | rfl <;> simp [Event.isCloseFile]
  · exact List.countP_eq_zero.mpr fun e he => by
      rcases emitLog_mem e he with rfl | rfl <;> simp [Event.isCloseTranscript]
  · exact List.filterMap_eq_nil_iff.mpr fun e he => by
      rcases emitLog_mem e he with rfl | rfl <;> rfl

/-- The normal-termination cleanup closes the transcript (if configured),
the file handler (if configured) and the console handler, each exactly
once, dispatching nothing. -/
theorem normalCleanup_counts (st : SinkSt) :
    (normalCleanup st).countP Event.isCloseConsole = 1 ∧
    (normalCleanup st).countP Event.isCloseFile = (if st.fileLevel.isSome then 1 else 0) ∧
    (normalCleanup st).countP Event.isCloseTranscript = (if st.usingTranscript then 1 else 0) ∧
    dispatchTrace (normalCleanup st) = [] := by
  cases h1 : st.usingTranscript <;> cases h2 : st.fileLevel <;>
    simp [normalCleanup, h1, h2, List.countP_cons, List.countP_nil, dispatchTrace,
      Event.isCloseConsole, Event.isCloseFile, Event.isCloseTranscript]

/-- The dispatch trace distributes over event-list concatenation. -/
theorem dispatchTrace_append (a b : List Event) :
    dispatchTrace (a ++ b) = dispatchTrace a ++ dispatchTrace b := by
  unfold dispatchTrace
  exact List.filterMap_append a b _

/-- The fatal-error cleanup closes exactly the same resources, each exactly
once, and dispatches nothing. -/
theorem errorCleanup_counts (st : SinkSt) (e : String) :
    (errorCleanup st e).countP Event.isCloseConsole = 1 ∧
    (errorCleanup st e).countP Event.isCloseFile = (if st.fileLevel.isSome then 1 else 0) ∧
    (errorCleanup st e).countP Event.isCloseTranscript = (if st.usingTranscript then 1 else 0) ∧
    dispatchTrace (errorCleanup st e) = [] := by
  have hc := emitLog_no_admin st 50 (.str ("Encountered exception in Logging Process: " ++ e))
  have hd := emitLog_no_admin st 50 (.str (format_exc e))
  refine ⟨?_, ?_, ?_, ?_⟩
  · simp only [errorCleanup, List.countP_append, hc.1, hd.1]
    cases h1 : st.usingTranscript <;> cases h2 : st.fileLevel <;>
      simp [h1, h2, List.countP_cons, List.countP_nil,
        Event.isCloseConsole, Event.isCloseFile, Event.isCloseTranscript]
  · simp only [errorCleanup, List.countP_append, hc.2.1, hd.2.1]
    cases h1 : st.usingTranscript <;> cases h2 : st.fileLevel <;>
      simp [h1, h2, List.countP_cons, List.countP_nil,
        Event.isCloseConsole, Event.isCloseFile, Event.isCloseTranscript]
  · simp only [errorCleanup, List.countP_append, hc.2.2.1, hd.2.2.1]
    cases h1 : st.usingTranscript <;> cases h2 : st.fileLevel <;>
      simp [h1, h2, List.countP_cons, List.countP_nil,
        Event.isCloseConsole, Event.isCloseFile, Event.isCloseTranscript]
  · simp only [errorCleanup, dispatchTrace_append, hc.2.2.2, hd.2.2.2]
    cases h1 : st.usingTranscript <;> cases h2 : st.fileLevel <;>
      simp [h1, h2, dispatchTrace]

/-- A successful dispatch step emits no close events and no dispatch
markers of its own, and leaves the handler configuration (file handler
presence, transcript presence) unchanged. -/
theorem stepParcel_ok_facts {st : SinkSt} {p : PyVal} {st' : SinkSt} {evs : List Event}
    (h : stepParcel st p = .ok (st', evs)) :
    evs.countP Event.isCloseConsole = 0 ∧ evs.countP Event.isCloseFile = 0 ∧
    evs.countP Event.isCloseTranscript = 0 ∧ dispatchTrace evs = [] ∧
    st'.fileLevel = st.fileLevel ∧ st'.usingTranscript = st.usingTranscript := by
  unfold stepParcel at h
  split at h
  · exact absurd h (by simp)
  · split at h
    · split at h
      · split at h
        · exact absurd h (by simp)
        · obtain ⟨h1, h2⟩ : st = st' ∧ [Event.transcriptAdd _] = evs := by
            simpa using h
          subst h1
          subst h2
          simp [dispatchTrace, Event.isCloseConsole, Event.isCloseFile, Event.isCloseTranscript]
      · exact absurd h (by simp)
    · split at h
      · exact absurd h (by simp)
      · split at h
        · exact absurd h (by simp)
        · obtain ⟨h1, h2⟩ :
              { st with logLevel := _, consoleLevel := _ } = st' ∧ emitLog st 100 _ = evs := by
            simpa using h
          subst h1
          subst h2
          exact ⟨(emitLog_no_admin _ _ _).1, (emitLog_no_admin _ _ _).2.1,
            (emitLog_no_admin _ _ _).2.2.1, (emitLog_no_admin _ _ _).2.2.2, rfl, rfl⟩
    · split at h
      · exact absurd h (by simp)
      · obtain ⟨h1, h2⟩ :
            { st with numLogLines := st.numLogLines + 1 } = st' ∧ emitLog st _ _ = evs := by
          simpa using h
        subst h1
        subst h2
        exact ⟨(emitLog_no_admin _ _ _).1, (emitLog_no_admin _ _ _).2.1,
          (emitLog_no_admin _ _ _).2.2.1, (emitLog_no_admin _ _ _).2.2.2, rfl, rfl⟩
    · exact absurd h (by simp)

/-- Whatever parcels precede it, once the quit sentinel sent by `join` is
reached (or a parcel turns out fatal first), the receive loop terminates
and closes the console handler exactly once, the file handler exactly once
iff one is configured, and the transcript exactly once iff one is
configured. -/
theorem runLoop_join_facts (msgs : List PyVal) : ∀ st : SinkSt,
    (runLoop st (msgs ++ [QUIT_PROC_SIGNAL])).2 ≠ Outcome.starved ∧
    (runLoop st (msgs ++ [QUIT_PROC_SIGNAL])).1.countP Event.isCloseConsole = 1 ∧
    (runLoop st (msgs ++ [QUIT_PROC_SIGNAL])).1.countP Event.isCloseFile =
      (if st.fileLevel.isSome then 1 else 0) ∧
    (runLoop st (msgs ++ [QUIT_PROC_SIGNAL])).1.countP Event.isCloseTranscript =
      (if st.usingTranscript then 1 else 0) := by
  induction msgs with
  | nil =>
      intro st
      have hn := normalCleanup_counts st
      simp only [List.nil_append]
      rw [show runLoop st [QUIT_PROC_SIGNAL] = (normalCleanup st, .exited) from by
        simp [runLoop, isQuitSignal, QUIT_PROC_SIGNAL]]
      exact ⟨by simp, hn.1, hn.2.1, hn.2.2.1⟩
  | cons p rest ih =>
      intro st
      simp only [List.cons_append]
      by_cases hq : isQuitSignal p = true
      · rw [show runLoop st (p :: (rest ++ [QUIT_PROC_SIGNAL])) = (normalCleanup st, .exited)
          from by simp [runLoop, hq]]
        have hn := normalCleanup_counts st
        exact ⟨by simp, hn.1, hn.2.1, hn.2.2.1⟩
      · cases hstep : stepParcel st p with
        | error e =>
            rw [show runLoop st (p :: (rest ++ [QUIT_PROC_SIGNAL])) =
                (errorCleanup st e, .fatal e) from by simp [runLoop, hq, hstep]]
            have hn := errorCleanup_counts st e
            exact ⟨by simp, hn.1, hn.2.1, hn.2.2.1⟩
        | ok pr =>
            obtain ⟨st', evs⟩ := pr
            obtain ⟨hcc, hcf, hct, _, hfl, hut⟩ := stepParcel_ok_facts hstep
            have hrl : runLoop st (p :: (rest ++ [QUIT_PROC_SIGNAL])) =
                (evs ++ [.dispatched p] ++ (runLoop st' (rest ++ [QUIT_PROC_SIGNAL])).1,
                 (runLoop st' (rest ++ [QUIT_PROC_SIGNAL])).2) := by
              simp [runLoop, hq, hstep]
            obtain ⟨h1, h2, h3, h4⟩ := ih st'
            rw [hrl]
            refine ⟨h1, ?_, ?_, ?_⟩
            · simp only [List.countP_append, hcc, h2, List.countP_cons, List.countP_nil,
                Event.isCloseConsole]
              simp
            · simp only [List.countP_append, hcf, List.countP_cons, List.countP_nil,
                Event.isCloseFile]
              rw [h3, hfl]
              simp
            · simp only [List.countP_append, hct, List.countP_cons, List.countP_nil,
                Event.isCloseTranscript]
              rw [h4, hut]
              simp

/-- A parcel that is `processable` for the sink's transcript configuration
is not the quit sentinel and is dispatched successfully, leaving the
configuration unchanged and producing no dispatch markers of its own. -/
theorem processable_stepParcel {st : SinkSt} {p : PyVal}
    (h : processable st.usingTranscript p = true) :
    isQuitSignal p = false ∧
    ∃ st' evs, stepParcel st p = .ok (st', evs) ∧
      st'.usingTranscript = st.usingTranscript ∧ st'.fileLevel = st.fileLevel ∧
      dispatchTrace evs = [] := by
  cases p with
  | str s => simp [processable] at h
  | int n => simp [processable] at h
  | dict fields =>
      refine ⟨rfl, ?_⟩
      cases hl : fields.lookup "level" with
      | none => simp [processable, hl] at h
      | some lvl =>
          cases lvl with
          | int n =>
              simp only [processable, hl] at h
              cases hm : fields.lookup "msg" with
              | none => rw [hm] at h; simp at h
              | some m =>
                  exact ⟨{ st with numLogLines := st.numLogLines + 1 }, emitLog st n m,
                    by simp [stepParcel, pyGetItem, hl, hm], rfl, rfl,
                    (emitLog_no_admin _ _ _).2.2.2⟩
          | dict d => simp [processable, hl] at h
          | str s =>
              by_cases hs1 : s = "transcript"
              · subst hs1
                simp only [processable, hl, if_pos, Bool.and_eq_true] at h
                obtain ⟨htc, hms⟩ := h
                cases hm : fields.lookup "msg" with
                | none => rw [hm] at hms; simp at hms
                | some m =>
                    exact ⟨st, [.transcriptAdd m],
                      by simp [stepParcel, pyGetItem, hl, hm, htc], rfl, rfl, rfl⟩
              · by_cases hs2 : s = "setlevel"
                · subst hs2
                  simp only [processable, hl] at h
                  cases hm : fields.lookup "msg" with
                  | none => rw [hm] at h; simp at h
                  | some m =>
                      rw [hm] at h
                      cases m with
                      | str s2 => simp at h
                      | dict d => simp at h
                      | int j =>
                          exact ⟨{ st with logLevel := j, consoleLevel := j },
                            emitLog st 100 (.str ("Setting logger level to " ++ toString j)),
                            by simp [stepParcel, pyGetItem, hl, hm, pyToInt], rfl, rfl,
                            (emitLog_no_admin _ _ _).2.2.2⟩
                · simp [processable, hl, hs1, hs2] at h

/-- FIFO dispatch: if every parcel ahead of the quit sentinel is
processable, the receive loop dispatches exactly those parcels, in exactly
the order sent, and then exits normally. -/
theorem runLoop_dispatch (msgs : List PyVal) : ∀ st : SinkSt,
    (∀ p ∈ msgs, processable st.usingTranscript p = true) →
    dispatchTrace (runLoop st (msgs ++ [QUIT_PROC_SIGNAL])).1 = msgs ∧
    (runLoop st (msgs ++ [QUIT_PROC_SIGNAL])).2 = Outcome.exited := by
  induction msgs with
  | nil =>
      intro st _
      rw [show runLoop st ([] ++ [QUIT_PROC_SIGNAL]) = (normalCleanup st, .exited) from by
        simp [runLoop, isQuitSignal, QUIT_PROC_SIGNAL]]
      exact ⟨(normalCleanup_counts st).2.2.2, rfl⟩
  | cons p rest ih =>
      intro st hall
      have hp := hall p (by simp)
      obtain ⟨hq, st', evs, hstep, hut, _, htr⟩ := processable_stepParcel hp
      have hrl : runLoop st ((p :: rest) ++ [QUIT_PROC_SIGNAL]) =
          (evs ++ [.dispatched p] ++ (runLoop st' (rest ++ [QUIT_PROC_SIGNAL])).1,
           (runLoop st' (rest ++ [QUIT_PROC_SIGNAL])).2) := by
        simp [runLoop, hq, hstep]
      have hrest : ∀ q ∈ rest, processable st'.usingTranscript q = true := by
        intro q hqm
        rw [hut]
        exact hall q (by simp [hqm])
      obtain ⟨h1, h2⟩ := ih st' hrest
      rw [hrl]
      constructor
      · simp only [dispatchTrace_append, htr, h1]
        simp [dispatchTrace]
      · exact h2

/-! ## Claims -/

/-- C1: under the `lines` rotation policy with threshold `n ≥ 2`, a fresh
`Transcript` fed a sequence of `add` calls (at strictly increasing
timestamps, so that rotated file names do not collide) produces files
whose entry counts are `countsAfter n k` in creation order: the first file
ends with exactly `n - 1` entries and every completed (non-final) file
after it with exactly `n`, since the counter resets before the write and
the boundary-crossing entry lands as the first line of the newly opened
file (second conjunct).  In particular with `n = 3`, 7 adds produce line
counts `[2, 3, 2]` in creation order (third conjunct). -/
theorem claim_C1_bylinecount_counts (n : Nat) (nm : String) (lpf t0 : Nat)
    (ts : Nat → Nat) (ps : Nat → PyVal)
    (h2 : 2 ≤ n) (hlpf : 1 ≤ lpf) (ht0 : t0 < ts 0) (hts : ∀ i, ts i < ts (i + 1)) :
    (∀ k, ∃ tr fs, linesRun n nm lpf t0 ts ps k = .ok (tr, fs) ∧
       fs.map (fun e => e.2.length) = countsAfter n k ∧
       (n ≤ k → (fs.map (fun e => e.2.length)).head? = some (n - 1) ∧
          ∀ x ∈ ((fs.map (fun e => e.2.length)).drop 1).dropLast, x = n))
    ∧ (∀ k tr fs, linesRun n nm lpf t0 ts ps k = .ok (tr, fs) →
        n ≤ tr.current_line + 1 →
        ∃ tr', linesRun n nm lpf t0 ts ps (k + 1) =
          .ok (tr', fs ++ [(mkFileName nm (ts k), [entryLine (ts k) (ps k)])]))
    ∧ (linesRun 3 "T" 100 0 (fun i => i + 1) (fun _ => PyVal.int 0) 7).map
        (fun p => p.2.map (fun e => e.2.length)) = Except.ok [2, 3, 2] := by
  refine ⟨?_, ?_, ?_⟩
  · intro k
    obtain ⟨tr, done, cur, hrun, _, _, _, _, _, _, hdone, hcur, _, _⟩ :=
      linesRun_spec n nm lpf t0 ts ps h2 hlpf ht0 hts k
    refine ⟨tr, done ++ [cur], hrun, ?_, ?_⟩
    · simp only [List.map_append, List.map_cons, List.map_nil, hdone, hcur]
      rfl
    · intro hnk
      have hnotlt : ¬ k < n := by omega
      constructor
      · simp only [List.map_append, List.map_cons, List.map_nil, hdone, hcur,
          closedCounts, hnotlt, if_false]
        simp
      · intro x hx
        simp only [List.map_append, List.map_cons, List.map_nil, hdone, hcur,
          closedCounts, hnotlt, if_false] at hx
        simp only [List.cons_append, List.drop_succ_cons, List.drop_zero,
          List.dropLast_concat] at hx
        exact List.eq_of_mem_replicate hx
  · intro k tr fs hrun hge
    obtain ⟨tr₂, done, cur, hrun₂, hpol, hlpl, hlpf', hnm, hctr, hcfn, hdone, hcur,
      htimes, hfresh⟩ := linesRun_spec n nm lpf t0 ts ps h2 hlpf ht0 hts k
    have hinj : tr = tr₂ ∧ fs = done ++ [cur] := by
      have h := hrun.symm.trans hrun₂
      simpa using h
    obtain ⟨rfl, rfl⟩ := hinj
    have heq : ctr n k + 1 = n := by
      have hlt := @ctr_lt n k h2
      rw [hctr] at hge
      omega
    have hfreshname : mkFileName nm (ts k) ∉ fsNames (done ++ [cur]) := by
      intro hin
      obtain ⟨e, he, hfe⟩ := List.mem_map.mp hin
      obtain ⟨t, htk, hname⟩ := htimes e he
      rw [hname] at hfe
      have := mkFileName_inj hfe
      omega
    obtain ⟨cn, cc⟩ := cur
    have hadd := @add_lines_rot tr (ts k) (ps k) (done ++ [(cn, cc)]) hpol (by omega)
      (by rw [hctr, hlpl]; omega) (by rw [hnm]; exact hfreshname)
    have hrun1 : linesRun n nm lpf t0 ts ps (k + 1) =
        tr.add (ts k) (ps k) (done ++ [(cn, cc)]) := by
      simp [linesRun, hrun]
    refine ⟨{ tr with
                current_line := 0
                log_start := ts k
                current_file_name := mkFileName nm (ts k) }, ?_⟩
    rw [hrun1, hadd, hnm]
  · rfl

/-- Witness for C1: instantiating the theorem at `n = 3` with 7 adds at
times 1..7 yields files with line counts `[2, 3, 2]` in creation order. -/
theorem claim_C1_bylinecount_counts_witness :
    (linesRun 3 "T" 100 0 (fun i => i + 1) (fun _ => PyVal.int 0) 7).map
        (fun p => p.2.map (fun e => e.2.length)) = Except.ok [2, 3, 2] :=
  (claim_C1_bylinecount_counts 3 "T" 100 0 (fun i => i + 1) (fun _ => PyVal.int 0)
    (by norm_num) (by norm_num) (by norm_num) (fun i => by simp)).2.2

/-- C2: for a single producer that sends the parcels `msgs` and then
invokes the supervisor's shutdown (`join`, which enqueues the quit
sentinel behind them on the same FIFO channel), the sink loop dispatches
exactly those parcels — each exactly once and in exactly the order sent —
before it exits its receive loop and terminates normally.  The hypothesis
`processable` states that each parcel is one the sink can process without
a fatal error (in particular a transcript entry is only sent when a
transcript is configured), which the spec's fatal-error semantics makes a
necessary assumption. -/
theorem claim_C2_single_producer_fifo_dispatch (lc : Int) (lf : Option Int) (tc : Bool)
    (fe : Nat) (msgs : List PyVal)
    (h : ∀ p ∈ msgs, processable tc p = true) :
    dispatchTrace (joinRun lc lf tc fe msgs).1 = msgs ∧
    (joinRun lc lf tc fe msgs).2 = Outcome.exited := by
  obtain ⟨h1, h2⟩ := runLoop_dispatch msgs (mkSinkSt lc lf tc fe) h
  have hs := emitLog_no_admin (mkSinkSt lc lf tc fe) 20 (.str "Start Logging Server Process...")
  unfold joinRun sinkMain
  exact ⟨by simp only [dispatchTrace_append, hs.2.2.2, h1, List.nil_append], h2⟩

/-- Witness for C2: two records sent by the writer `w` at levels 20 and 30
followed by `join` are dispatched exactly once each, in order, and the
sink exits. -/
theorem claim_C2_single_producer_fifo_dispatch_witness :
    dispatchTrace (joinRun 20 none false 0
        [PipeLogger.recordParcel "w" 20 (.str "a"),
         PipeLogger.recordParcel "w" 30 (.str "b")]).1 =
      [PipeLogger.recordParcel "w" 20 (.str "a"),
       PipeLogger.recordParcel "w" 30 (.str "b")] ∧
    (joinRun 20 none false 0
        [PipeLogger.recordParcel "w" 20 (.str "a"),
         PipeLogger.recordParcel "w" 30 (.str "b")]).2 = Outcome.exited :=
  claim_C2_single_producer_fifo_dispatch 20 none false 0
    [PipeLogger.recordParcel "w" 20 (.str "a"), PipeLogger.recordParcel "w" 30 (.str "b")]
    (by
      intro p hp
      simp only [List.mem_cons, List.not_mem_nil, or_false] at hp
      rcases hp with rfl | rfl <;> rfl)

/-- C3: after the supervisor's shutdown operation (`LoggerProcess.join`,
which enqueues the quit sentinel behind everything already sent and waits
for the process), the sink process has exited — the run never ends still
blocked on `recv` — and every resource it held is closed exactly once:
the transcript iff one was configured, the file handler iff one was
configured, and the console handler always; this holds on the normal exit
path and on the fatal-error path alike. -/
theorem claim_C3_join_closes_all_resources (lc : Int) (lf : Option Int) (tc : Bool)
    (fe : Nat) (msgs : List PyVal) :
    (joinRun lc lf tc fe msgs).2 ≠ Outcome.starved ∧
    (joinRun lc lf tc fe msgs).1.countP Event.isCloseConsole = 1 ∧
    (joinRun lc lf tc fe msgs).1.countP Event.isCloseFile = (if lf.isSome then 1 else 0) ∧
    (joinRun lc lf tc fe msgs).1.countP Event.isCloseTranscript = (if tc then 1 else 0) := by
  obtain ⟨h1, h2, h3, h4⟩ := runLoop_join_facts msgs (mkSinkSt lc lf tc fe)
  have hs := emitLog_no_admin (mkSinkSt lc lf tc fe) 20 (.str "Start Logging Server Process...")
  unfold joinRun sinkMain
  refine ⟨h1, ?_, ?_, ?_⟩
  · simp only [List.countP_append, hs.1, h2]
  · simp only [List.countP_append, hs.2.1, h3]
    simp [mkSinkSt]
  · simp only [List.countP_append, hs.2.2.1, h4]
    simp [mkSinkSt]

/-- C5: if the sink loop receives a `TranscriptEntry` parcel when no
transcript was configured, the raised error is fatal: the sink logs the
exception and its stack trace at critical level (visible on the console
whenever the configured level admits critical records), performs the same
cleanup as termination (console handler closed once, file handler closed
once iff configured, no transcript to close), dispatches nothing — in
particular none of the parcels still queued behind the failing one — and
the process exits with the fatal outcome instead of continuing to drain
the channel. -/
theorem claim_C5_unconfigured_transcript_fatal (lc : Int) (lf : Option Int) (fe : Nat)
    (nm : String) (m : PyVal) (rest : List PyVal) :
    (sinkMain lc lf false fe (PipeLogger.transcriptParcel nm m :: rest)).2 =
      Outcome.fatal "Received transcript write message but no transcript is enabled." ∧
    (sinkMain lc lf false fe (PipeLogger.transcriptParcel nm m :: rest)).1.countP
      Event.isCloseConsole = 1 ∧
    (sinkMain lc lf false fe (PipeLogger.transcriptParcel nm m :: rest)).1.countP
      Event.isCloseFile = (if lf.isSome then 1 else 0) ∧
    (sinkMain lc lf false fe (PipeLogger.transcriptParcel nm m :: rest)).1.countP
      Event.isCloseTranscript = 0 ∧
    dispatchTrace (sinkMain lc lf false fe (PipeLogger.transcriptParcel nm m :: rest)).1 = [] ∧
    (lc ≤ 50 →
      Event.consoleOut 50 (.str ("Encountered exception in Logging Process: " ++
          "Received transcript write message but no transcript is enabled.")) ∈
        (sinkMain lc lf false fe (PipeLogger.transcriptParcel nm m :: rest)).1 ∧
      Event.consoleOut 50 (.str (format_exc
          "Received transcript write message but no transcript is enabled.")) ∈
        (sinkMain lc lf false fe (PipeLogger.transcriptParcel nm m :: rest)).1) := by
  have hstep : stepParcel (mkSinkSt lc lf false fe) (PipeLogger.transcriptParcel nm m) =
      .error "Received transcript write message but no transcript is enabled." := by
    simp [stepParcel, PipeLogger.transcriptParcel, PipeLogger.logParcel, pyGetItem,
      mkSinkSt, List.lookup]
  have hq : isQuitSignal (PipeLogger.transcriptParcel nm m) = false := by
    simp [PipeLogger.transcriptParcel, PipeLogger.logParcel, isQuitSignal]
  have hrl : runLoop (mkSinkSt lc lf false fe) (PipeLogger.transcriptParcel nm m :: rest) =
      (errorCleanup (mkSinkSt lc lf false fe)
        "Received transcript write message but no transcript is enabled.",
       .fatal "Received transcript write message but no transcript is enabled.") := by
    simp [runLoop, hq, hstep]
  have herr := errorCleanup_counts (mkSinkSt lc lf false fe)
    "Received transcript write message but no transcript is enabled."
  have hs := emitLog_no_admin (mkSinkSt lc lf false fe) 20 (.str "Start Logging Server Process...")
  unfold sinkMain
  dsimp only
  rw [hrl]
  refine ⟨rfl, ?_, ?_, ?_, ?_, ?_⟩
  · simp only [List.countP_append, hs.1, herr.1]
  · simp only [List.countP_append, hs.2.1, herr.2.1]
    simp [mkSinkSt]
  · simp only [List.countP_append, hs.2.2.1, herr.2.2.1]
    simp [mkSinkSt]
  · simp only [dispatchTrace_append, hs.2.2.2, herr.2.2.2, List.append_nil]
  · intro hlc
    have hm1 : Event.consoleOut 50 (PyVal.str ("Encountered exception in Logging Process: " ++
        "Received transcript write message but no transcript is enabled.")) ∈
        emitLog (mkSinkSt lc lf false fe) 50
          (PyVal.str ("Encountered exception in Logging Process: " ++
            "Received transcript write message but no transcript is enabled.")) := by
      simp [emitLog, mkSinkSt, hlc]
    have hm2 : Event.consoleOut 50 (PyVal.str (format_exc
        "Received transcript write message but no transcript is enabled.")) ∈
        emitLog (mkSinkSt lc lf false fe) 50
          (PyVal.str (format_exc
            "Received transcript write message but no transcript is enabled.")) := by
      simp [emitLog, mkSinkSt, hlc]
    constructor
    · apply List.mem_append.mpr
      exact Or.inr (by simp only [errorCleanup, List.mem_append]; tauto)
    · apply List.mem_append.mpr
      exact Or.inr (by simp only [errorCleanup, List.mem_append]; tauto)

/-- Witness for C5 at a concrete configuration: a transcript parcel on a
sink with no transcript (console at INFO) is fatal and the critical log of
the exception reaches the console. -/
theorem claim_C5_unconfigured_transcript_fatal_witness :
    (sinkMain 20 none false 0 [PipeLogger.transcriptParcel "w" (.int 5)]).2 =
      Outcome.fatal "Received transcript write message but no transcript is enabled." ∧
    Event.consoleOut 50 (.str ("Encountered exception in Logging Process: " ++
        "Received transcript write message but no transcript is enabled.")) ∈
      (sinkMain 20 none false 0 [PipeLogger.transcriptParcel "w" (.int 5)]).1 :=
  ⟨(claim_C5_unconfigured_transcript_fatal 20 none 0 "w" (.int 5) []).1,
   ((claim_C5_unconfigured_transcript_fatal 20 none 0 "w" (.int 5) []).2.2.2.2.2
     (by norm_num)).1⟩

/-- C7: `transcribe(p)` (i.e. `PipeLogger.transcript`) builds and sends a
parcel tagged `transcript` whose `msg` field is `p` itself when the handle
has no name, and `"{name}: {message}"` (with the payload stringified) when
the handle carries a name; the sink passes exactly that value to
`Transcript.add`, and the transcript line written is its
`isoformat(now)::::json.dumps(value)` encoding. -/
theorem claim_C7_transcribe_payload_passthrough (name : String) (p : PyVal) (st : SinkSt)
    (htc : st.usingTranscript = true) :
    pyGetItem (PipeLogger.transcriptParcel name p) "level" = .ok (.str "transcript") ∧
    pyGetItem (PipeLogger.transcriptParcel name p) "msg" =
      .ok (if name = "" then p else .str (name ++ ": " ++ pystr p)) ∧
    stepParcel st (PipeLogger.transcriptParcel name p) =
      .ok (st, [.transcriptAdd (if name = "" then p else .str (name ++ ": " ++ pystr p))]) ∧
    (∀ (tr : Transcript) (now : Nat) (done : FS) (c : List String),
      tr.new_file_on = "time" → 1 ≤ tr.lines_per_flush →
      (now : Int) - (tr.log_start : Int) < (tr.time_per_log : Int) →
      tr.current_file_name ∉ fsNames done →
      tr.add now (if name = "" then p else .str (name ++ ": " ++ pystr p))
          (done ++ [(tr.current_file_name, c)]) =
        .ok ({ tr with current_line := tr.current_line + 1 },
          done ++ [(tr.current_file_name, c ++
            [isoformat now ++ "::::" ++
              jsonDumps (if name = "" then p else .str (name ++ ": " ++ pystr p)) ++
              "\n"])])) := by
  refine ⟨?_, ?_, ?_, ?_⟩
  · by_cases hn : name = "" <;>
      simp [pyGetItem, PipeLogger.transcriptParcel, PipeLogger.logParcel, List.lookup, hn]
  · by_cases hn : name = "" <;>
      simp [pyGetItem, PipeLogger.transcriptParcel, PipeLogger.logParcel, List.lookup, hn]
  · by_cases hn : name = "" <;>
      simp [stepParcel, pyGetItem, PipeLogger.transcriptParcel, PipeLogger.logParcel,
        List.lookup, hn, htc]
  · intro tr now done c hpol hlpf hlt hname
    have h := @add_time_no_rot tr now
      (if name = "" then p else .str (name ++ ": " ++ pystr p))
      done c hpol hlpf hlt hname
    simpa [entryLine] using h

/-- Witness for C7: with a named handle `w` and payload `5`, the sink hands
the string `w: 5` to the transcript, and the written line is its JSON
encoding. -/
theorem claim_C7_transcribe_payload_passthrough_witness :
    stepParcel (mkSinkSt 20 none true 0) (PipeLogger.transcriptParcel "w" (.int 5)) =
      .ok (mkSinkSt 20 none true 0, [.transcriptAdd (.str ("w" ++ ": " ++ pystr (.int 5)))]) ∧
    sampleTimeTr.add 105 (.str ("w" ++ ": " ++ pystr (.int 5))) [(mkFileName "T" 100, [])] =
      .ok ({ sampleTimeTr with current_line := 1 },
        [(mkFileName "T" 100,
          [isoformat 105 ++ "::::" ++ jsonDumps (.str ("w" ++ ": " ++ pystr (.int 5))) ++
            "\n"])]) := by
  have h := claim_C7_transcribe_payload_passthrough "w" (.int 5) (mkSinkSt 20 none true 0) rfl
  constructor
  · simpa using h.2.2.1
  · simpa using h.2.2.2 sampleTimeTr 105 [] [] rfl (by norm_num [sampleTimeTr])
      (by norm_num [sampleTimeTr]) (by simp [fsNames])

/-- Counterexample to C4 as stated: in a sink configured with console
level 20 and file level 30, processing `SetLevel(10)` leaves the file
handler's level at 30 (the source only calls `log.setLevel` and
`consolehandler.setLevel`), and a subsequent record at level 10 — which is
`≥ L` — is emitted to the console but not to the file, contradicting
"records at level ≥ L continue to appear in both". -/
theorem claim_C4_setlevel_counterexample :
    stepParcel (mkSinkSt 20 (some 30) false 0) (setLevelParcel 10) =
      .ok ({ logLevel := 10, consoleLevel := 10, fileLevel := some 30,
             usingTranscript := false, flushEvery := 0, numLogLines := 0 },
        [.consoleOut 100 (.str "Setting logger level to 10"),
         .fileOut 100 (.str "Setting logger level to 10")]) ∧
    emitLog { logLevel := 10, consoleLevel := 10, fileLevel := some 30,
              usingTranscript := false, flushEvery := 0, numLogLines := 0 }
        10 (.str "x") =
      [.consoleOut 10 (.str "x")] := by
  constructor <;> rfl

/-- C4 (amended): processing a `SetLevel(L)` parcel updates the logger
level and the console handler level to `L`, while the file handler keeps
its originally configured level.  Consequently every subsequent record
below `L` is dropped from both the console and the file sink, every record
at level `≥ L` appears on the console, and a record at level `≥ L` appears
in the file iff a file handler is configured and the record also clears
the file handler's original threshold. -/
theorem claim_C4_setlevel_scope (st : SinkSt) (L : Int) :
    stepParcel st (setLevelParcel L) =
      .ok ({ st with logLevel := L, consoleLevel := L },
        emitLog st 100 (.str ("Setting logger level to " ++ toString L))) ∧
    (∀ (r : Int) (m : PyVal), r < L →
      emitLog { st with logLevel := L, consoleLevel := L } r m = []) ∧
    (∀ (r : Int) (m : PyVal), L ≤ r →
      Event.consoleOut r m ∈ emitLog { st with logLevel := L, consoleLevel := L } r m ∧
      (Event.fileOut r m ∈ emitLog { st with logLevel := L, consoleLevel := L } r m ↔
        ∃ fl, st.fileLevel = some fl ∧ fl ≤ r)) := by
  refine ⟨?_, ?_, ?_⟩
  · simp [stepParcel, setLevelParcel, pyGetItem, List.lookup, pyToInt]
  · intro r m hr
    cases hfl : st.fileLevel <;>
      simp [emitLog, hfl, show ¬ L ≤ r by omega]
  · intro r m hr
    constructor
    · cases hfl : st.fileLevel <;>
        simp [emitLog, hfl, hr]
    · cases hfl : st.fileLevel with
      | none => simp [emitLog, hfl]
      | some fl =>
          by_cases hfr : fl ≤ r <;> simp [emitLog, hfl, hr, hfr]

/-- Witness for the amended C4 at a concrete configuration: console 20,
file 30, `SetLevel(10)`; a record at level 5 is dropped everywhere, a
record at level 10 appears on the console and not in the file. -/
theorem claim_C4_setlevel_scope_witness :
    emitLog { logLevel := 10, consoleLevel := 10, fileLevel := some 30,
              usingTranscript := false, flushEvery := 0, numLogLines := 0 }
        5 (.str "y") = [] ∧
    Event.consoleOut 10 (.str "x") ∈
      emitLog { logLevel := 10, consoleLevel := 10, fileLevel := some 30,
                usingTranscript := false, flushEvery := 0, numLogLines := 0 }
        10 (.str "x") ∧
    Event.fileOut 10 (.str "x") ∉
      emitLog { logLevel := 10, consoleLevel := 10, fileLevel := some 30,
                usingTranscript := false, flushEvery := 0, numLogLines := 0 }
        10 (.str "x") := by
  have h := claim_C4_setlevel_scope (mkSinkSt 20 (some 30) false 0) 10
  refine ⟨h.2.1 5 (.str "y") (by norm_num), (h.2.2 10 (.str "x") (by norm_num)).1, ?_⟩
  intro hmem
  obtain ⟨fl, hfl, hle⟩ := (h.2.2 10 (.str "x") (by norm_num)).2.mp hmem
  have : fl = 30 := by
    simpa [mkSinkSt] using hfl.symm
  omega

/-- Counterexample to C8 as stated: the parcel sent for a level-20 record
has no field named `kind` at all — reading it raises `KeyError` — so the
wire shape is not `\x7bkind: ..., level?: ..., msg?: ...\x7d` and `kind`
is not the discriminator. -/
theorem claim_C8_wire_shape_counterexample :
    pyGetItem (PipeLogger.recordParcel "" 20 (.str "hello")) "kind" =
      .error "KeyError: kind" := rfl

/-- C8 (amended): every parcel placed on the channel by a producer handle
or by the supervisor is the dict `\x7blevel: ..., msg: ...\x7d` whose
discriminator field is named `level` — carrying the integer severity for
records, the string `transcript` for transcript entries and the string
`setlevel` for level changes — except shutdown, which is the bare sentinel
string `quit_logger` with no structured fields; and the sink demultiplexes
each received object on that `level` field (the quit sentinel by direct
comparison). -/
theorem claim_C8_wire_shape_level_discriminator :
    (∀ (nm : String) (l : Int) (m : PyVal), ∃ mv,
      PipeLogger.recordParcel nm l m = .dict [("level", .int l), ("msg", mv)]) ∧
    (∀ (nm : String) (m : PyVal), ∃ mv,
      PipeLogger.transcriptParcel nm m = .dict [("level", .str "transcript"), ("msg", mv)]) ∧
    (∀ l : Int, setLevelParcel l = .dict [("level", .str "setlevel"), ("msg", .int l)]) ∧
    QUIT_PROC_SIGNAL = .str "quit_logger" ∧
    (∀ (st : SinkSt) (rest : List PyVal),
      runLoop st (QUIT_PROC_SIGNAL :: rest) = (normalCleanup st, .exited)) ∧
    (∀ (st : SinkSt) (nm : String) (l : Int) (m : PyVal),
      stepParcel st (PipeLogger.recordParcel nm l m) =
        .ok ({ st with numLogLines := st.numLogLines + 1 },
          emitLog st l (if nm = "" then m else .str (nm ++ ": " ++ pystr m)))) ∧
    (∀ (st : SinkSt) (nm : String) (m : PyVal),
      stepParcel st (PipeLogger.transcriptParcel nm m) =
        (if st.usingTranscript then
          .ok (st, [.transcriptAdd (if nm = "" then m else .str (nm ++ ": " ++ pystr m))])
        else .error "Received transcript write message but no transcript is enabled.")) ∧
    (∀ (st : SinkSt) (l : Int),
      stepParcel st (setLevelParcel l) =
        .ok ({ st with logLevel := l, consoleLevel := l },
          emitLog st 100 (.str ("Setting logger level to " ++ toString l)))) := by
  refine ⟨?_, ?_, ?_, rfl, ?_, ?_, ?_, ?_⟩
  · intro nm l m
    by_cases hn : nm = "" <;> simp [PipeLogger.recordParcel, PipeLogger.logParcel, hn]
  · intro nm m
    by_cases hn : nm = "" <;> simp [PipeLogger.transcriptParcel, PipeLogger.logParcel, hn]
  · intro l
    rfl
  · intro st rest
    simp [runLoop, isQuitSignal, QUIT_PROC_SIGNAL]
  · intro st nm l m
    by_cases hn : nm = "" <;>
      simp [stepParcel, PipeLogger.recordParcel, PipeLogger.logParcel, pyGetItem,
        List.lookup, hn]
  · intro st nm m
    cases htc : st.usingTranscript <;> by_cases hn : nm = "" <;>
      simp [stepParcel, PipeLogger.transcriptParcel, PipeLogger.logParcel, pyGetItem,
        List.lookup, hn, htc]
  · intro st l
    simp [stepParcel, setLevelParcel, pyGetItem, List.lookup, pyToInt]

/-- Counterexample to C9 as stated: transcript files are opened in write
mode, not append mode.  A first `Transcript` under the `day` policy writes
an entry into `T_0.log`; constructing a second `Transcript` with the same
prefix and directory on the same calendar day opens the same file name and
truncates it — the previously written content is erased. -/
theorem claim_C9_append_only_counterexample :
    (Transcript.init 1000 (some "T") "day" 100 (24, 0, 0) 100 []).bind (fun p1 =>
        (p1.1.add 1100 (.int 7) p1.2).bind (fun p2 =>
          (Transcript.init 2000 (some "T") "day" 100 (24, 0, 0) 100 p2.2).map (fun p3 =>
            (p2.2, p3.2)))) =
      .ok ([(mkFileName "T" 0, [entryLine 1100 (.int 7)])], [(mkFileName "T" 0, [])]) := rfl

/-- C9 (amended): within a single `Transcript`'s operation the structure is
append-only — writes only ever extend the current file's content, and a
rotation whose new file name is not already taken preserves every existing
file unchanged; in particular a full `add` (with a sane flush cadence and
a fresh rotation name) keeps every previously written file's content as a
prefix.  However, because files are opened in write mode, opening a file
whose name coincides with an existing file's name (two same-prefix
transcripts on the same day under the `day` policy) truncates the existing
file — see the counterexample. -/
theorem claim_C9_append_only_within_run :
    (∀ (fs : FS) (fname line nm0 : String) (c0 : List String),
       (nm0, c0) ∈ fs → ∃ c1, (nm0, c1) ∈ fsWrite fs fname line ∧ c0 <+: c1) ∧
    (∀ (tr : Transcript) (now : Nat) (fs : FS),
       (tr.create_new_log now fs).1.current_file_name ∉ fsNames fs →
       (tr.create_new_log now fs).2 =
         fs ++ [((tr.create_new_log now fs).1.current_file_name, [])]) ∧
    (∀ (tr : Transcript) (now : Nat) (obj : PyVal) (fs : FS),
       1 ≤ tr.lines_per_flush →
       ({ tr with current_line := tr.current_line + 1 }.create_new_log now
           fs).1.current_file_name ∉ fsNames fs →
       ∃ tr2 fs2, tr.add now obj fs = .ok (tr2, fs2) ∧
         fsNames fs <+: fsNames fs2 ∧
         ∀ (nm0 : String) (c0 : List String), (nm0, c0) ∈ fs →
           ∃ c1, (nm0, c1) ∈ fs2 ∧ c0 <+: c1) := by
  refine ⟨fun fs fname line nm0 c0 hm => fsWrite_preserves fs fname line nm0 c0 hm, ?_, ?_⟩
  · intro tr now fs h
    exact fsOpenW_fresh h
  · intro tr now obj fs hlpf hfresh
    have hne : tr.lines_per_flush ≠ 0 := by omega
    by_cases h1 : tr.new_file_on = "lines"
    · by_cases h2 : tr.lines_per_log ≤ tr.current_line + 1
      · have hname : ({ tr with current_line := tr.current_line + 1 }.create_new_log now
            fs).1.current_file_name = mkFileName tr.name now := by
          simp [Transcript.create_new_log, h1]
        rw [hname] at hfresh
        refine ⟨_, _, add_lines_rot h1 hlpf h2 hfresh, ?_, ?_⟩
        · simp only [fsNames, List.map_append]
          exact List.prefix_append _ _
        · intro nm0 c0 hm
          exact ⟨c0, List.mem_append_left _ hm, List.prefix_refl c0⟩
      · have heq : tr.add now obj fs =
            .ok ({ tr with current_line := tr.current_line + 1 },
              fsWrite fs tr.current_file_name (entryLine now obj)) := by
          simp [Transcript.add, pymod, hne, h1, h2]
        refine ⟨_, _, heq, ?_, ?_⟩
        · rw [fsNames_fsWrite]
        · intro nm0 c0 hm
          exact fsWrite_preserves fs _ _ nm0 c0 hm
    · by_cases h3 : tr.new_file_on = "time"
      · by_cases h4 : (tr.time_per_log : Int) ≤ (now : Int) - (tr.log_start : Int)
        · have hname : ({ tr with current_line := tr.current_line + 1 }.create_new_log now
              fs).1.current_file_name = mkFileName tr.name now := by
            simp [Transcript.create_new_log, h3]
          rw [hname] at hfresh
          refine ⟨_, _, add_time_rot h3 hlpf h4 hfresh, ?_, ?_⟩
          · simp only [fsNames, List.map_append]
            exact List.prefix_append _ _
          · intro nm0 c0 hm
            exact ⟨c0, List.mem_append_left _ hm, List.prefix_refl c0⟩
        · have heq : tr.add now obj fs =
              .ok ({ tr with current_line := tr.current_line + 1 },
                fsWrite fs tr.current_file_name (entryLine now obj)) := by
            simp [Transcript.add, pymod, hne, h1, h3, h4]
          refine ⟨_, _, heq, ?_, ?_⟩
          · rw [fsNames_fsWrite]
          · intro nm0 c0 hm
            exact fsWrite_preserves fs _ _ nm0 c0 hm
      · by_cases h5 : tr.new_file_on = "day"
        · by_cases h4 : (tr.time_per_log : Int) ≤ (now : Int) - (tr.log_start : Int)
          · have hname : ({ tr with current_line := tr.current_line + 1 }.create_new_log now
                fs).1.current_file_name = mkFileName tr.name (midnightOf now) := by
              simp [Transcript.create_new_log, h5]
            rw [hname] at hfresh
            refine ⟨_, _, add_day_rot h5 hlpf h4 hfresh, ?_, ?_⟩
            · simp only [fsNames, List.map_append]
              exact List.prefix_append _ _
            · intro nm0 c0 hm
              exact ⟨c0, List.mem_append_left _ hm, List.prefix_refl c0⟩
          · have heq : tr.add now obj fs =
                .ok ({ tr with current_line := tr.current_line + 1 },
                  fsWrite fs tr.current_file_name (entryLine now obj)) := by
              simp [Transcript.add, pymod, hne, h1, h3, h5, h4]
            refine ⟨_, _, heq, ?_, ?_⟩
            · rw [fsNames_fsWrite]
            · intro nm0 c0 hm
              exact fsWrite_preserves fs _ _ nm0 c0 hm
        · have heq : tr.add now obj fs =
              .ok ({ tr with current_line := tr.current_line + 1 },
                fsWrite fs tr.current_file_name (entryLine now obj)) := by
            simp [Transcript.add, pymod, hne, h1, h3, h5]
          refine ⟨_, _, heq, ?_, ?_⟩
          · rw [fsNames_fsWrite]
          · intro nm0 c0 hm
            exact fsWrite_preserves fs _ _ nm0 c0 hm

/-- Witness for the amended C9: a fresh-named rotation at time 110
preserves the file written in the 100-window, and the rotated-into add
keeps every existing file's content as a prefix. -/
theorem claim_C9_append_only_within_run_witness :
    (sampleTimeTr.create_new_log 110 [(mkFileName "T" 100, ["x"])]).2 =
      [(mkFileName "T" 100, ["x"])] ++
        [((sampleTimeTr.create_new_log 110 [(mkFileName "T" 100, ["x"])]).1.current_file_name,
          [])] ∧
    (∃ tr2 fs2, sampleTimeTr.add 110 (.int 1) [(mkFileName "T" 100, ["x"])] = .ok (tr2, fs2) ∧
      fsNames [(mkFileName "T" 100, ["x"])] <+: fsNames fs2 ∧
      ∀ (nm0 : String) (c0 : List String), (nm0, c0) ∈ [(mkFileName "T" 100, ["x"])] →
        ∃ c1, (nm0, c1) ∈ fs2 ∧ c0 <+: c1) :=
  ⟨claim_C9_append_only_within_run.2.1 sampleTimeTr 110 [(mkFileName "T" 100, ["x"])]
     (by decide),
   claim_C9_append_only_within_run.2.2 sampleTimeTr 110 (.int 1)
     [(mkFileName "T" 100, ["x"])] (by norm_num [sampleTimeTr]) (by decide)⟩

/-- C10: `Transcript.add` is total only under the precondition
`lines_per_flush ≥ 1`.  With `lines_per_flush = 0` every call to `add`
fails with a `ZeroDivisionError` raised by the flush cadence check before
anything is written (the call returns the error and produces no new file
state); with `lines_per_flush ≥ 1` the flush branch never raises and `add`
returns normally. -/
theorem claim_C10_add_total_iff_flush_positive (tr : Transcript) (now : Nat) (obj : PyVal)
    (fs : FS) :
    (tr.lines_per_flush = 0 →
      tr.add now obj fs = .error "ZeroDivisionError: integer division or modulo by zero")
    ∧ (1 ≤ tr.lines_per_flush → ∃ res, tr.add now obj fs = .ok res) := by
  constructor
  · intro h0
    simp [Transcript.add, pymod, h0]
  · intro h1
    simp [Transcript.add, pymod, show tr.lines_per_flush ≠ 0 by omega]

/-- Witness for C10 at concrete inputs: a zero-cadence transcript fails
with `ZeroDivisionError`, a positive-cadence one succeeds. -/
theorem claim_C10_add_total_iff_flush_positive_witness :
    sampleZeroFlushTr.add 105 (.int 1) [(mkFileName "T" 100, [])] =
        .error "ZeroDivisionError: integer division or modulo by zero"
    ∧ ∃ res, sampleTimeTr.add 105 (.int 1) [(mkFileName "T" 100, [])] = .ok res :=
  ⟨(claim_C10_add_total_iff_flush_positive sampleZeroFlushTr 105 (.int 1)
      [(mkFileName "T" 100, [])]).1 rfl,
   (claim_C10_add_total_iff_flush_positive sampleTimeTr 105 (.int 1)
      [(mkFileName "T" 100, [])]).2 (by norm_num [sampleTimeTr])⟩

/-- C6: under the `ByElapsedTime(d)` policy (`new_file_on = time`,
`time_per_log = d`), `Transcript.add` performs no rotation while
`now - windowStart < d`: the entry is appended to the current file and the
window is unchanged.  The first `add` at or after elapsed time `d` closes
the current file, opens a new file named
`{prefix}_{windowStart.isoformat()}.log` (where `windowStart` is the
window start after the reset, i.e. `now` — the source resets `log_start`
before forming the name), resets the line counter to 0 and the window
start to `now`, and writes the entry as the first line of the newly
created file.  Hypotheses: a sane flush cadence, the current file is the
last-created one, and the rotated file name is not already taken. -/
theorem claim_C6_by_elapsed_time_rotation (tr : Transcript) (now : Nat) (obj : PyVal)
    (done : FS) (c : List String)
    (hpol : tr.new_file_on = "time")
    (hlpf : 1 ≤ tr.lines_per_flush)
    (hname : tr.current_file_name ∉ fsNames done) :
    ((now : Int) - (tr.log_start : Int) < (tr.time_per_log : Int) →
      tr.add now obj (done ++ [(tr.current_file_name, c)]) =
        .ok ({ tr with current_line := tr.current_line + 1 },
          done ++ [(tr.current_file_name, c ++ [entryLine now obj])]))
    ∧ ((tr.time_per_log : Int) ≤ (now : Int) - (tr.log_start : Int) →
      mkFileName tr.name now ∉ fsNames (done ++ [(tr.current_file_name, c)]) →
      tr.add now obj (done ++ [(tr.current_file_name, c)]) =
        .ok ({ tr with
                 current_line := 0
                 log_start := now
                 current_file_name := mkFileName tr.name now },
          (done ++ [(tr.current_file_name, c)]) ++
            [(mkFileName tr.name now, [entryLine now obj])])) :=
  ⟨fun h => add_time_no_rot hpol hlpf h hname,
   fun h hf => add_time_rot hpol hlpf h hf⟩

/-- Witness for C6 at concrete inputs: with a 10-second window starting at
100, an add at 105 appends to the current file without rotating, and an
add at 110 creates the file `T_110.log` with the entry as its first
line. -/
theorem claim_C6_by_elapsed_time_rotation_witness :
    sampleTimeTr.add 105 (.int 1) [(mkFileName "T" 100, [])] =
        .ok ({ sampleTimeTr with current_line := 1 },
          [(mkFileName "T" 100, [entryLine 105 (.int 1)])])
    ∧ sampleTimeTr.add 110 (.int 2) [(mkFileName "T" 100, [])] =
        .ok ({ sampleTimeTr with
                 current_line := 0
                 log_start := 110
                 current_file_name := mkFileName "T" 110 },
          [(mkFileName "T" 100, []), (mkFileName "T" 110, [entryLine 110 (.int 2)])]) := by
  constructor
  · exact (claim_C6_by_elapsed_time_rotation sampleTimeTr 105 (.int 1) [] []
      rfl (by norm_num [sampleTimeTr]) (by simp [fsNames])).1 (by norm_num [sampleTimeTr])
  · exact (claim_C6_by_elapsed_time_rotation sampleTimeTr 110 (.int 2) [] []
      rfl (by norm_num [sampleTimeTr]) (by simp [fsNames])).2
      (by norm_num [sampleTimeTr]) (by decide)

end JUtil
